import Mathlib

/-!
Verification of the fundos-investimento consolidation and change-detection
pipeline against its specification.  The definitions below are a shallow
embedding of the Python source:

* `pyFloat`, `to_float_elem`, `taxa_coerce` embed the numeric coercion of
  `src/consolidador/parsers/rcvm175.py::_to_float` and
  `src/analisador_fundos.py::AnalisadorFundos.carregar_dados`;
* `agg_publico_alvo`, `agg_esg`, `first_non_null`,
  `aggregate_classes_per_fund`, `merge_fund_with_primary_class` embed
  `src/consolidador/merger.py`;
* `detect_changes` and the two state-store models embed
  `script.py::CVMDataExtractor` and `src/storage.py`;
* the fetch-decision functions embed the cache branches of
  `src/consolidador/downloader.py` and
  `src/analisador_fundos.py::CVMDownloader.baixar_csv`.
-/

namespace Fundos

/-! ### Numeric coercion (rcvm175._to_float, carregar_dados) -/

/-- Value of a list of decimal digit characters, most significant first. -/
def digitsVal (cs : List Char) : Nat :=
  cs.foldl (fun n c => 10 * n + (c.toNat - 48)) 0

/-- Parse an unsigned decimal literal: digits, optionally followed by a dot
and further digits, at least one digit in total, nothing else.  Any other
shape (two dots, stray letters, empty input) is rejected. -/
def parseDec (cs : List Char) : Option ℚ :=
  let ip := cs.takeWhile Char.isDigit
  let rest := cs.drop ip.length
  match rest with
  | [] => if ip.isEmpty then none else some (mkRat (digitsVal ip) 1)
  | '.' :: fp =>
      if fp.all Char.isDigit && (!ip.isEmpty || !fp.isEmpty) then
        some (mkRat (digitsVal ip * 10 ^ fp.length + digitsVal fp) (10 ^ fp.length))
      else none
  | _ => none

/-- Model of Python `float(...)` / `pandas.to_numeric` on the plain decimal
literals that occur in this data set (optional sign, digits, one optional
dot; no exponents, underscores or whitespace forms, which never appear in
these CSV fields).  A string that does not parse yields `none`, matching
`errors='coerce'` and the callers' `except ValueError: pass`. -/
def pyFloat (s : String) : Option ℚ :=
  match s.data with
  | '-' :: rest => (parseDec rest).map Rat.neg
  | '+' :: rest => parseDec rest
  | cs => parseDec cs

/-- Python `str.replace(',', '.')`: every comma becomes a period. -/
def replaceCommaDot (s : String) : String :=
  String.mk (s.data.map (fun c => if c = ',' then '.' else c))

/-- Element-level embedding of `rcvm175._to_float`: the pandas pipeline
`series.astype(str).str.replace(',', '.')` then
`pd.to_numeric(..., errors='coerce')`.  A missing cell (`none`) stays
missing (`astype(str)` turns NaN into the string "nan", which `to_numeric`
coerces back to NaN). -/
def to_float_elem (c : Option String) : Option ℚ :=
  match c with
  | none => none
  | some s => pyFloat (replaceCommaDot s)

/-- Embedding of the fee coercion in `AnalisadorFundos.carregar_dados`:
`linha.get('TAXA_ADM', '').replace(',', '.')`, skip if empty, else
`float(...)` with `ValueError` swallowed to `None`. -/
def taxa_coerce (s : String) : Option ℚ :=
  let t := replaceCommaDot s
  if t = "" then none else pyFloat t

/-! ### Class aggregation (merger._aggregate_classes_per_fund) -/

/-- The fixed priority table `publico_priority` of `merger.py` (most
restrictive first); any other value maps to 99 via `.get(x, 99)`. -/
def publico_priority (s : String) : Nat :=
  if s = "Profissional" then 1
  else if s = "Qualificado" then 2
  else if s = "Público Geral" then 3
  else 99

/-- Index of the first minimal element of a list, the semantics of
`pandas.Series.argmin` on positional data (0 on the empty list). -/
def argminIdx : List Nat → Nat
  | [] => 0
  | x :: xs =>
      let j := argminIdx xs
      match xs.get? j with
      | none => 0
      | some y => if x ≤ y then 0 else j + 1

/-- `agg_publico_alvo` from `merger.py`: drop the nulls; if nothing is
left return `None`; otherwise map to priorities and return the element at
the argmin (first occurrence of the minimal priority). -/
def agg_publico_alvo (series : List (Option String)) : Option String :=
  let valid := series.filterMap id
  if valid.isEmpty then none
  else valid.get? (argminIdx (valid.map publico_priority))

/-- Python `str.upper` restricted to the ASCII data of this field. -/
def pyUpper (s : String) : String :=
  String.mk (s.data.map Char.toUpper)

/-- `agg_esg` from `merger.py`: `series.str.upper().eq('S').any()` — a
null cell never matches; the result is the marker `'S'` or `None` (never a
false value). -/
def agg_esg (series : List (Option String)) : Option String :=
  if series.any (fun c => match c with
      | none => false
      | some s => pyUpper s == "S") then
    some "S"
  else none

/-- `first_non_null` from `merger.py`: first non-null value of the series,
`None` when all cells are null. -/
def first_non_null (series : List (Option String)) : Option String :=
  (series.filterMap id).head?

/-- A fund row of `fundos_df`.  The five class-aggregated columns are
explicit and nullable; `other` stands for all remaining fund-level columns
(identity, names, dates, …), which the merge never touches. -/
structure FundRow (α : Type) where
  id_fundo : String
  classificacao_anbima : Option String
  publico_alvo : Option String
  forma_condominio : Option String
  classe_esg : Option String
  exclusivo : Option String
  other : α
deriving DecidableEq, Repr

/-- A class row of `classes_df` with the columns the aggregation reads. -/
structure ClassRow where
  id_fundo : String
  classificacao_anbima : Option String
  publico_alvo : Option String
  forma_condominio : Option String
  classe_esg : Option String
  exclusivo : Option String
deriving DecidableEq, Repr

/-- One aggregated row of `class_agg` (per `id_fundo`). -/
structure AggRow where
  classificacao_anbima : Option String
  publico_alvo : Option String
  forma_condominio : Option String
  classe_esg : Option String
  exclusivo : Option String
deriving DecidableEq, Repr

/-- The `agg_dict` applied to one `groupby('id_fundo')` group, rows in
original input order (pandas groups are order-stable). -/
def aggregateGroup (rows : List ClassRow) : AggRow where
  classificacao_anbima := first_non_null (rows.map ClassRow.classificacao_anbima)
  publico_alvo := agg_publico_alvo (rows.map ClassRow.publico_alvo)
  forma_condominio := first_non_null (rows.map ClassRow.forma_condominio)
  classe_esg := agg_esg (rows.map ClassRow.classe_esg)
  exclusivo := first_non_null (rows.map ClassRow.exclusivo)

/-- `_aggregate_classes_per_fund`: group the class table by `id_fundo`
and aggregate each group — one output row per distinct fund identifier.
(The key order produced by pandas `groupby` differs, but no property below
depends on the order of this table, only on its keys being distinct.) -/
def aggregate_classes_per_fund (classes : List ClassRow) : List (String × AggRow) :=
  ((classes.map ClassRow.id_fundo).dedup).map
    (fun fid => (fid, aggregateGroup (classes.filter (fun c => c.id_fundo == fid))))

/-! ### Fund–class merge (merger.merge_fund_with_primary_class) -/

/-- Pandas left merge of the fund table with an aggregated right table on
`id_fundo`: each fund row is paired with every matching right row, or with
`none` when no right row matches. -/
def leftJoin {α : Type} (fundos : List (FundRow α)) (agg : List (String × AggRow)) :
    List (FundRow α × Option AggRow) :=
  fundos.flatMap (fun f =>
    match agg.filter (fun p => p.1 == f.id_fundo) with
    | [] => [(f, none)]
    | ms => ms.map (fun p => (f, some p.2)))

/-- `Series.fillna` at one cell: keep the fund value when present, else
take the class value. -/
def fillna (a b : Option String) : Option String :=
  match a with
  | some v => some v
  | none => b

/-- The fill loop of `merge_fund_with_primary_class` lines 51–59: each of
the five class-aggregated columns is filled from the `_classe` column only
where the fund-level value is null; a fund row with no matching class row
(all `_classe` cells NaN) is left as it was. -/
def fill_from_class {α : Type} (f : FundRow α) : Option AggRow → FundRow α
  | none => f
  | some a =>
      { f with
        classificacao_anbima := fillna f.classificacao_anbima a.classificacao_anbima
        publico_alvo := fillna f.publico_alvo a.publico_alvo
        forma_condominio := fillna f.forma_condominio a.forma_condominio
        classe_esg := fillna f.classe_esg a.classe_esg
        exclusivo := fillna f.exclusivo a.exclusivo }

/-- `merge_fund_with_primary_class`: with no class data the fund table is
returned unchanged; otherwise the aggregated class table is left-joined on
`id_fundo` and the five columns are gap-filled. -/
def merge_fund_with_primary_class {α : Type}
    (fundos : List (FundRow α)) (classes : List ClassRow) : List (FundRow α) :=
  if classes.isEmpty then fundos
  else (leftJoin fundos (aggregate_classes_per_fund classes)).map
    (fun p => fill_from_class p.1 p.2)

/-! ### Change detection (script.py, CVMDataExtractor.detect_changes) -/

/-- A resource entry of `current_data` (`resource['id']`,
`resource.get('last_modified')`); display-only fields (`name`, `format`,
`url`, `size`) are carried along by the code but never branch the
classification and are omitted here. -/
structure ResourceInfo where
  id : String
  last_modified : Option String
deriving DecidableEq, Repr

/-- A dataset entry of `current_data` (`metadata_modified`, `resources`);
`title`/`num_resources` are display-only and omitted. -/
structure DatasetInfo where
  metadata_modified : Option String
  resources : List ResourceInfo
deriving DecidableEq, Repr

/-- A stored resource fingerprint of the previous state. -/
structure PrevResource where
  last_modified : Option String
deriving DecidableEq, Repr

/-- A stored dataset fingerprint of the previous state
(`state['datasets'][id]`), with its resources keyed by resource id. -/
structure PrevDataset where
  metadata_modified : Option String
  resources : List (String × PrevResource)
deriving DecidableEq, Repr

/-- The six buckets of the change report built by `detect_changes`.
Entries keep the fields that identify them and the old/new fingerprints;
copied display fields (titles, names, resource payloads) are omitted. -/
structure Changes where
  new_datasets : List String
  modified_datasets : List (String × Option String × Option String)
  deleted_datasets : List String
  new_resources : List (String × String)
  modified_resources : List (String × String × Option String × Option String)
  deleted_resources : List (String × String)
deriving DecidableEq, Repr

/-- `CVMDataExtractor.detect_changes`.  `current` is the freshly fetched
`current_data` (a dict: keys distinct, insertion-ordered); `previous` is
`none` when the previous state is empty or has no `datasets` key.  The
resource-level buckets are computed inside the `else` branch of the
per-dataset loop, i.e. only for datasets present in both snapshots.
(The code iterates deleted resource ids as a Python set difference, whose
order is unspecified; here they appear in stored order.) -/
def detect_changes (current : List (String × DatasetInfo))
    (previous : Option (List (String × PrevDataset))) : Changes :=
  match previous with
  | none =>
      { new_datasets := current.map Prod.fst
        modified_datasets := []
        deleted_datasets := []
        new_resources := []
        modified_resources := []
        deleted_resources := [] }
  | some prev_datasets =>
      { new_datasets :=
          (current.filter (fun p => (prev_datasets.lookup p.1).isNone)).map Prod.fst
        modified_datasets :=
          current.filterMap (fun p =>
            match prev_datasets.lookup p.1 with
            | none => none
            | some pd =>
                if p.2.metadata_modified ≠ pd.metadata_modified then
                  some (p.1, pd.metadata_modified, p.2.metadata_modified)
                else none)
        deleted_datasets :=
          (prev_datasets.filter (fun q => !(current.any (fun p => p.1 == q.1)))).map Prod.fst
        new_resources :=
          current.flatMap (fun p =>
            match prev_datasets.lookup p.1 with
            | none => []
            | some pd =>
                (p.2.resources.filter (fun r => (pd.resources.lookup r.id).isNone)).map
                  (fun r => (p.1, r.id)))
        modified_resources :=
          current.flatMap (fun p =>
            match prev_datasets.lookup p.1 with
            | none => []
            | some pd =>
                p.2.resources.filterMap (fun r =>
                  match pd.resources.lookup r.id with
                  | none => none
                  | some pr =>
                      if r.last_modified ≠ pr.last_modified then
                        some (p.1, r.id, pr.last_modified, r.last_modified)
                      else none))
        deleted_resources :=
          current.flatMap (fun p =>
            match prev_datasets.lookup p.1 with
            | none => []
            | some pd =>
                (pd.resources.filter
                    (fun q => !(p.2.resources.any (fun r => r.id == q.1)))).map
                  (fun q => (p.1, q.1))) }

/-! ### State stores (script.py save_state, src/storage.py save_state) -/

/-- The JSON state file written by `CVMDataExtractor.save_state`: the
`datasets` mapping (plus a run timestamp and summary we do not model). -/
structure ScriptState where
  datasets : List (String × PrevDataset)
deriving DecidableEq, Repr

/-- `CVMDataExtractor.save_state`: the state structure is built from
`all_data` alone and written over the previous file (`open(..., 'w')` +
`json.dump`), so the stored snapshot is a function of the saved data only
— the old stored state is not an input. -/
def script_save_state (all_data : List (String × DatasetInfo)) : ScriptState :=
  { datasets :=
      all_data.map (fun p =>
        (p.1,
         { metadata_modified := p.2.metadata_modified
           resources := p.2.resources.map (fun r => (r.id, ⟨r.last_modified⟩)) })) }

/-- SQLite `INSERT OR REPLACE` keyed on a primary key: replace the row in
place when the key exists, append otherwise.  (SQLite physically
re-inserts, but row order is irrelevant to every property below.) -/
def upsert {β : Type} (l : List (String × β)) (k : String) (v : β) : List (String × β) :=
  if l.any (fun p => p.1 == k) then
    l.map (fun p => if p.1 == k then (k, v) else p)
  else l ++ [(k, v)]

/-- `src/storage.py::save_state`, datasets table: one `INSERT OR REPLACE`
per dataset of `all_data` into the existing table `db`.  No `DELETE` is
ever issued.  (The resources table is updated by the same upsert pattern;
the dataset table suffices for the properties below.) -/
def storage_save_state (db : List (String × DatasetInfo))
    (all_data : List (String × DatasetInfo)) : List (String × DatasetInfo) :=
  all_data.foldl (fun acc p => upsert acc p.1 p.2) db

/-! ### Download cache decisions (downloader.py, analisador_fundos.py) -/

/-- Outcome of the cache check: serve the cached artifact, or go to the
network. -/
inductive FetchAction
  | cached
  | network
deriving DecidableEq, Repr

/-- The cache branch of `downloader.download_csv`:
`if use_cache and not force and cache_path.exists(): return cache_path`. -/
def download_csv_action (use_cache force cache_exists : Bool) : FetchAction :=
  if use_cache && !force && cache_exists then .cached else .network

/-- The cache branch of `CVMDownloader.baixar_csv`: with `usar_cache` and
an existing cache file, the cached JSON is returned when its age in
seconds is below 3600 (one hour); otherwise the file is downloaded. -/
def baixar_csv_action (usar_cache cache_exists : Bool) (idade_cache : Nat) : FetchAction :=
  if usar_cache && cache_exists && decide (idade_cache < 3600) then .cached else .network

/-- The cache branch of `downloader.download_zip`: an already-extracted,
non-empty directory is reused
(`if use_cache and not force and extract_to.exists() and any(extract_to.iterdir())`);
the function takes no age input — the check is existence only. -/
def download_zip_action (use_cache force dir_exists dir_nonempty : Bool) : FetchAction :=
  if use_cache && !force && dir_exists && dir_nonempty then .cached else .network

/-! ### Helper lemmas: argmin -/

theorem argminIdx_lt_length : ∀ (l : List Nat), l ≠ [] → argminIdx l < l.length := by
  intro l hl
  induction l with
  | nil => exact absurd rfl hl
  | cons x xs ih =>
      simp only [argminIdx]
      cases hxs : xs.get? (argminIdx xs) with
      | none => simp
      | some y =>
          by_cases hxy : x ≤ y
          · simp [hxy]
          · have : argminIdx xs < xs.length := by
              cases xs with
              | nil => simp at hxs
              | cons a as => exact ih (by simp)
            simp only [if_neg hxy, List.length_cons]
            omega

theorem argminIdx_spec : ∀ (l : List Nat), l ≠ [] →
    ∃ m, l.get? (argminIdx l) = some m ∧ (∀ y ∈ l, m ≤ y) ∧
      ∀ j z, j < argminIdx l → l.get? j = some z → m < z := by
  intro l hl
  induction l with
  | nil => exact absurd rfl hl
  | cons x xs ih =>
      cases hxs : xs with
      | nil =>
          refine ⟨x, by simp [argminIdx], ?_, ?_⟩
          · intro y hy; simp at hy; omega
          · intro j z hj _; simp [argminIdx] at hj
      | cons a as =>
          obtain ⟨m, hm, hmin, hfirst⟩ := ih (by simp [hxs])
          rw [← hxs] at *
          simp only [argminIdx, hm]
          by_cases hx : x ≤ m
          · simp only [if_pos hx]
            refine ⟨x, by simp, ?_, ?_⟩
            · intro y hy
              rcases List.mem_cons.mp hy with h | h
              · omega
              · exact le_trans hx (hmin y h)
            · intro j z hj _; omega
          · simp only [if_neg hx]
            refine ⟨m, by simpa using hm, ?_, ?_⟩
            · intro y hy
              rcases List.mem_cons.mp hy with h | h
              · omega
              · exact hmin y h
            · intro j z hj hz
              cases j with
              | zero =>
                  simp at hz
                  omega
              | succ k =>
                  have hk : k < argminIdx xs := by omega
                  exact hfirst k z hk (by simpa using hz)

/-! ### Helper lemmas: priority table -/

theorem one_le_publico_priority (s : String) : 1 ≤ publico_priority s := by
  unfold publico_priority
  split
  · omega
  · split
    · omega
    · split
      · omega
      · omega

theorem publico_priority_eq_one (s : String) (h : publico_priority s = 1) :
    s = "Profissional" := by
  by_contra hs
  unfold publico_priority at h
  rw [if_neg hs] at h
  split at h
  · omega
  · split at h
    · omega
    · omega

/-! ### Helper lemmas: agg_publico_alvo -/

theorem agg_publico_alvo_none (series : List (Option String))
    (h : series.filterMap id = []) : agg_publico_alvo series = none := by
  simp [agg_publico_alvo, h]

theorem agg_publico_alvo_spec (series : List (Option String))
    (h : series.filterMap id ≠ []) :
    ∃ v, agg_publico_alvo series = some v ∧ v ∈ series.filterMap id ∧
      (∀ w ∈ series.filterMap id, publico_priority v ≤ publico_priority w) ∧
      ∃ i, (series.filterMap id).get? i = some v ∧
        ∀ j w, j < i → (series.filterMap id).get? j = some w →
          publico_priority v < publico_priority w := by
  set valid := series.filterMap id with hvalid
  have hmapne : valid.map publico_priority ≠ [] := by
    simpa using h
  obtain ⟨m, hm, hmin, hfirst⟩ := argminIdx_spec (valid.map publico_priority) hmapne
  set i := argminIdx (valid.map publico_priority) with hi
  rw [List.get?_map] at hm
  cases hv : valid.get? i with
  | none => rw [hv] at hm; simp at hm
  | some v =>
      rw [hv] at hm
      simp at hm
      refine ⟨v, ?_, List.get?_mem hv, ?_, i, hv, ?_⟩
      · simp only [agg_publico_alvo]
        rw [← hvalid, if_neg (by simpa [List.isEmpty_iff] using h)]
        exact hv
      · intro w hw
        rw [hm]
        exact hmin _ (List.mem_map_of_mem publico_priority hw)
      · intro j w hj hw
        rw [hm]
        refine hfirst j (publico_priority w) hj ?_
        rw [List.get?_map, hw]
        rfl

theorem agg_publico_alvo_profissional (series : List (Option String))
    (h : "Profissional" ∈ series.filterMap id) :
    agg_publico_alvo series = some "Profissional" := by
  have hne : series.filterMap id ≠ [] := by
    intro he; rw [he] at h; simp at h
  obtain ⟨v, hv, _, hmin, _⟩ := agg_publico_alvo_spec series hne
  have h1 : publico_priority v ≤ 1 := by
    have := hmin _ h
    simpa [publico_priority] using this
  have h2 : publico_priority v = 1 :=
    le_antisymm h1 (one_le_publico_priority v)
  rw [hv, publico_priority_eq_one v h2]

/-! ### Helper lemmas: association lists -/

theorem lookup_eq_none_of_forall {β : Type} (l : List (String × β)) (k : String)
    (h : ∀ p ∈ l, p.1 ≠ k) : l.lookup k = none := by
  induction l with
  | nil => rfl
  | cons p t ih =>
      have hp : p.1 ≠ k := h p (by simp)
      have hb : (k == p.1) = false := beq_eq_false_iff_ne.mpr (fun he => hp he.symm)
      simp only [List.lookup, hb]
      exact ih (fun q hq => h q (List.mem_cons_of_mem _ hq))

theorem lookup_isSome_of_mem {β : Type} (l : List (String × β)) (k : String)
    (h : k ∈ l.map Prod.fst) : (l.lookup k).isSome := by
  induction l with
  | nil => simp at h
  | cons p t ih =>
      by_cases hk : k = p.1
      · simp [List.lookup, hk]
      · have hb : (k == p.1) = false := beq_eq_false_iff_ne.mpr hk
        simp only [List.lookup, hb]
        refine ih ?_
        simp only [List.map_cons, List.mem_cons] at h
        exact h.resolve_left hk

theorem mem_fst_of_lookup_isSome {β : Type} (l : List (String × β)) (k : String)
    (h : (l.lookup k).isSome) : k ∈ l.map Prod.fst := by
  induction l with
  | nil => simp [List.lookup] at h
  | cons p t ih =>
      by_cases hk : k = p.1
      · simp [hk]
      · have hb : (k == p.1) = false := beq_eq_false_iff_ne.mpr hk
        simp only [List.lookup, hb] at h
        exact List.mem_cons_of_mem _ (ih h)

theorem filter_key_eq_lookup {β : Type} (l : List (String × β)) (k : String)
    (h : (l.map Prod.fst).Nodup) :
    l.filter (fun p => p.1 == k) =
      (match l.lookup k with
       | none => []
       | some v => [(k, v)]) := by
  induction l with
  | nil => rfl
  | cons p t ih =>
      have h' := h
      rw [List.map_cons, List.nodup_cons] at h'
      obtain ⟨hp, ht⟩ := h'
      by_cases hk : p.1 = k
      · have hb : (p.1 == k) = true := beq_iff_eq.mpr hk
        have hb' : (k == p.1) = true := beq_iff_eq.mpr hk.symm
        have htf : t.filter (fun q => q.1 == k) = [] := by
          refine List.filter_eq_nil_iff.mpr ?_
          intro q hq
          simp only [Bool.not_eq_true, beq_eq_false_iff_ne]
          intro he
          have hmem : q.1 ∈ t.map Prod.fst := List.mem_map_of_mem Prod.fst hq
          rw [he, ← hk] at hmem
          exact hp hmem
        simp only [List.filter_cons, hb, if_pos rfl, htf, List.lookup, hb']
        cases p with
        | mk a b => simp at hk; simp [hk]
      · have hb : (p.1 == k) = false := beq_eq_false_iff_ne.mpr hk
        have hb' : (k == p.1) = false := beq_eq_false_iff_ne.mpr (fun he => hk he.symm)
        simp only [List.filter_cons, hb, List.lookup, hb']
        simpa using ih ht

/-! ### Helper lemmas: aggregation table and merge -/

theorem aggregate_keys (classes : List ClassRow) :
    (aggregate_classes_per_fund classes).map Prod.fst =
      (classes.map ClassRow.id_fundo).dedup := by
  rw [aggregate_classes_per_fund, List.map_map]
  exact List.map_id _

theorem aggregate_keys_nodup (classes : List ClassRow) :
    ((aggregate_classes_per_fund classes).map Prod.fst).Nodup := by
  rw [aggregate_keys]
  exact List.nodup_dedup _

theorem lookup_aggregate_eq_none (classes : List ClassRow) (k : String)
    (h : ∀ c ∈ classes, c.id_fundo ≠ k) :
    (aggregate_classes_per_fund classes).lookup k = none := by
  refine lookup_eq_none_of_forall _ _ ?_
  intro p hp
  have : p.1 ∈ (aggregate_classes_per_fund classes).map Prod.fst :=
    List.mem_map_of_mem Prod.fst hp
  rw [aggregate_keys] at this
  have : p.1 ∈ classes.map ClassRow.id_fundo := (List.mem_dedup).mp this
  obtain ⟨c, hc, hcp⟩ := List.mem_map.mp this
  exact hcp ▸ h c hc

theorem leftJoin_eq_map {α : Type} (fundos : List (FundRow α))
    (agg : List (String × AggRow)) (h : (agg.map Prod.fst).Nodup) :
    leftJoin fundos agg = fundos.map (fun f => (f, agg.lookup f.id_fundo)) := by
  induction fundos with
  | nil => rfl
  | cons f t ih =>
      simp only [leftJoin, List.flatMap_cons, List.map_cons] at *
      rw [ih]
      congr 1
      rw [filter_key_eq_lookup agg f.id_fundo h]
      cases agg.lookup f.id_fundo with
      | none => rfl
      | some v => rfl

theorem merge_eq_map {α : Type} (fundos : List (FundRow α)) (classes : List ClassRow) :
    merge_fund_with_primary_class fundos classes =
      fundos.map (fun f =>
        fill_from_class f ((aggregate_classes_per_fund classes).lookup f.id_fundo)) := by
  unfold merge_fund_with_primary_class
  by_cases hc : classes.isEmpty
  · rw [if_pos hc]
    have : classes = [] := List.isEmpty_iff.mp hc
    subst this
    have : aggregate_classes_per_fund [] = [] := rfl
    rw [this]
    simp only [List.lookup]
    have : ∀ f : FundRow α, fill_from_class f none = f := fun _ => rfl
    simp [this]
  · rw [if_neg hc]
    rw [leftJoin_eq_map fundos _ (aggregate_keys_nodup classes), List.map_map]
    rfl

/-! ### Helper lemmas: state stores -/

theorem upsert_map_fst {β : Type} (l : List (String × β)) (k : String) (v : β) :
    (upsert l k v).map Prod.fst =
      (if l.any (fun p => p.1 == k) then l.map Prod.fst else l.map Prod.fst ++ [k]) := by
  unfold upsert
  by_cases h : l.any (fun p => p.1 == k)
  · rw [if_pos h, if_pos h, List.map_map]
    refine List.map_congr_left ?_
    intro p _
    by_cases hp : p.1 = k
    · simp [Function.comp, hp]
    · simp [Function.comp, beq_eq_false_iff_ne.mpr hp]
  · rw [if_neg h, if_neg h]
    simp

theorem mem_fst_upsert {β : Type} (l : List (String × β)) (k k' : String) (v : β)
    (h : k' ∈ l.map Prod.fst) : k' ∈ (upsert l k v).map Prod.fst := by
  rw [upsert_map_fst]
  by_cases ha : l.any (fun p => p.1 == k)
  · rwa [if_pos ha]
  · rw [if_neg ha]
    exact List.mem_append_left _ h

theorem mem_fst_storage_save_state (all_data : List (String × DatasetInfo)) :
    ∀ (db : List (String × DatasetInfo)) (k : String),
      k ∈ db.map Prod.fst → k ∈ (storage_save_state db all_data).map Prod.fst := by
  induction all_data with
  | nil => intro db k h; exact h
  | cons p t ih =>
      intro db k h
      exact ih (upsert db p.1 p.2) k (mem_fst_upsert db p.1 k p.2 h)

theorem script_save_state_map_fst (all_data : List (String × DatasetInfo)) :
    (script_save_state all_data).datasets.map Prod.fst = all_data.map Prod.fst := by
  unfold script_save_state
  rw [List.map_map]
  rfl

/-- The class-derived value that the merge would contribute for fund
`fid` in column `sel`: the aggregated value when `fid` has class rows,
null when it has none. -/
def class_value (classes : List ClassRow) (fid : String)
    (sel : AggRow → Option String) : Option String :=
  match (aggregate_classes_per_fund classes).lookup fid with
  | none => none
  | some a => sel a

/-! ### Claim theorems -/

/-- C1: for a fund's class series, the aggregated target-audience tier is
the most restrictive non-null value under the priority order
Profissional = 1, Qualificado = 2, Público Geral = 3, unknown = 99; ties
are broken by stable input order (the first occurrence of the winning
priority wins — every earlier non-null value has strictly larger
priority); a series containing Profissional aggregates to Profissional
regardless of order, and a series with no non-null value aggregates to
null. -/
theorem claim_C1 (series : List (Option String)) :
    (series.filterMap id = [] → agg_publico_alvo series = none) ∧
    ("Profissional" ∈ series.filterMap id →
      agg_publico_alvo series = some "Profissional") ∧
    (∀ v, agg_publico_alvo series = some v →
      v ∈ series.filterMap id ∧
      (∀ w ∈ series.filterMap id, publico_priority v ≤ publico_priority w) ∧
      ∃ i, (series.filterMap id).get? i = some v ∧
        ∀ j w, j < i → (series.filterMap id).get? j = some w →
          publico_priority v < publico_priority w) := by
  refine ⟨agg_publico_alvo_none series, agg_publico_alvo_profissional series, ?_⟩
  intro v hv
  by_cases h : series.filterMap id = []
  · rw [agg_publico_alvo_none series h] at hv
    exact absurd hv (by simp)
  · obtain ⟨v', hv', hmem, hmin, i, hi, hfirst⟩ := agg_publico_alvo_spec series h
    rw [hv] at hv'
    obtain rfl : v' = v := by injection hv'.symm
    exact ⟨hmem, hmin, i, hi, hfirst⟩

/-- C1 witness: instantiated at the series
[Público Geral, null, Profissional] the aggregate is Profissional. -/
theorem claim_C1_witness :
    "Profissional" ∈
        ([some "Público Geral", none, some "Profissional"] :
          List (Option String)).filterMap id ∧
    agg_publico_alvo [some "Público Geral", none, some "Profissional"] =
      some "Profissional" :=
  ⟨by decide, (claim_C1 [some "Público Geral", none, some "Profissional"]).2.1 (by decide)⟩

/-- C2: the fund's derived ESG value is the marker 'S' as soon as one
class cell carries "s" or "S" (Python upper-casing makes the compare
case-insensitive), and it is null (`none`) — not a false value — when no
class cell upper-cases to "S". -/
theorem claim_C2 (series : List (Option String)) :
    ((some "s" ∈ series ∨ some "S" ∈ series) → agg_esg series = some "S") ∧
    ((∀ s, some s ∈ series → pyUpper s ≠ "S") → agg_esg series = none) := by
  constructor
  · intro h
    have hany : series.any (fun c => match c with
        | none => false
        | some s => pyUpper s == "S") = true := by
      rw [List.any_eq_true]
      rcases h with h | h
      · exact ⟨some "s", h, by decide⟩
      · exact ⟨some "S", h, by decide⟩
    simp [agg_esg, hany]
  · intro h
    have hany : series.any (fun c => match c with
        | none => false
        | some s => pyUpper s == "S") = false := by
      rw [List.any_eq_false]
      intro c hc
      match c with
      | none => simp
      | some s =>
          simp only [Bool.not_eq_true, beq_eq_false_iff_ne]
          exact h s hc
    simp [agg_esg, hany]

/-- C2 witness: a series with a lowercase marker yields 'S'; a series
with no marker yields null. -/
theorem claim_C2_witness :
    agg_esg [some "n", some "s"] = some "S" ∧
    agg_esg [some "n", none] = none :=
  ⟨(claim_C2 [some "n", some "s"]).1 (Or.inl (by decide)),
   (claim_C2 [some "n", none]).2 (by
      intro s hs
      simp only [List.mem_cons, List.not_mem_nil, or_false] at hs
      rcases hs with hs | hs
      · obtain rfl : s = "n" := by injection hs
        decide
      · exact absurd hs (by simp))⟩

/-- C3 counterexample: the locale string "1.234,56" does NOT coerce to
1234.56.  The coercion only substitutes the decimal comma, so the
thousands dot survives ("1.234.56") and parsing fails, yielding null in
both coercion implementations. -/
theorem claim_C3_counterexample :
    to_float_elem (some "1.234,56") = none ∧
    to_float_elem (some "1.234,56") ≠ some (mkRat 123456 100) ∧
    taxa_coerce "1.234,56" = none ∧
    taxa_coerce "1.234,56" ≠ some (mkRat 123456 100) := by
  refine ⟨by decide, by decide, by decide, by decide⟩

/-- C3 amended: a plain comma-decimal string "1234,56" coerces to 1234.56;
a thousands-separated string "1.234,56" coerces to null (the comma→period
substitution leaves two dots and the parse fails, recovered to null); the
empty string coerces to null, not zero; a malformed string "abc" coerces
to null; no case escapes the coercion boundary as an error (the result
type is an option, never an exception). -/
theorem claim_C3_amended :
    to_float_elem (some "1234,56") = some (mkRat 123456 100) ∧
    (mkRat 123456 100 : ℚ) = 123456 / 100 ∧
    to_float_elem (some "1.234,56") = none ∧
    to_float_elem (some "") = none ∧
    to_float_elem (some "abc") = none ∧
    to_float_elem none = none ∧
    taxa_coerce "1234,56" = some (mkRat 123456 100) ∧
    taxa_coerce "1.234,56" = none ∧
    taxa_coerce "" = none ∧
    taxa_coerce "abc" = none := by
  refine ⟨by decide, ?_, by decide, by decide, by decide, by decide, by decide,
    by decide, by decide, by decide⟩
  norm_num [Rat.mkRat_eq_div]

/-- C4: in the fund–class merge, for every fund row and every one of the
five class-aggregated columns, a non-null fund-level value is left
unchanged, and the class-derived value appears only where the fund-level
value is null; the fund identity and all other fund-level columns are
untouched. -/
theorem claim_C4 {α : Type} (fundos : List (FundRow α)) (classes : List ClassRow)
    (i : Nat) (f : FundRow α) (hf : fundos.get? i = some f) :
    ∃ r, (merge_fund_with_primary_class fundos classes).get? i = some r ∧
      r.id_fundo = f.id_fundo ∧ r.other = f.other ∧
      (∀ v, f.classificacao_anbima = some v → r.classificacao_anbima = some v) ∧
      (f.classificacao_anbima = none →
        r.classificacao_anbima = class_value classes f.id_fundo AggRow.classificacao_anbima) ∧
      (∀ v, f.publico_alvo = some v → r.publico_alvo = some v) ∧
      (f.publico_alvo = none →
        r.publico_alvo = class_value classes f.id_fundo AggRow.publico_alvo) ∧
      (∀ v, f.forma_condominio = some v → r.forma_condominio = some v) ∧
      (f.forma_condominio = none →
        r.forma_condominio = class_value classes f.id_fundo AggRow.forma_condominio) ∧
      (∀ v, f.classe_esg = some v → r.classe_esg = some v) ∧
      (f.classe_esg = none →
        r.classe_esg = class_value classes f.id_fundo AggRow.classe_esg) ∧
      (∀ v, f.exclusivo = some v → r.exclusivo = some v) ∧
      (f.exclusivo = none →
        r.exclusivo = class_value classes f.id_fundo AggRow.exclusivo) := by
  refine ⟨fill_from_class f ((aggregate_classes_per_fund classes).lookup f.id_fundo),
    ?_, ?_⟩
  · rw [merge_eq_map, List.get?_map, hf]
    rfl
  · unfold class_value
    cases (aggregate_classes_per_fund classes).lookup f.id_fundo with
    | none =>
        refine ⟨rfl, rfl, ?_⟩
        simp only [fill_from_class]
        exact ⟨fun v hv => hv, fun hv => hv, fun v hv => hv, fun hv => hv,
          fun v hv => hv, fun hv => hv, fun v hv => hv, fun hv => hv,
          fun v hv => hv, fun hv => hv⟩
    | some a =>
        refine ⟨rfl, rfl, ?_⟩
        simp only [fill_from_class]
        refine ⟨fun v hv => ?_, fun hv => ?_, fun v hv => ?_, fun hv => ?_,
          fun v hv => ?_, fun hv => ?_, fun v hv => ?_, fun hv => ?_,
          fun v hv => ?_, fun hv => ?_⟩ <;>
          simp [fillna, hv]

/-- C4 witness: one fund whose classification is already set and whose
target audience is null, one class row carrying both — the merge keeps
the fund's classification and fills the audience from the class. -/
theorem claim_C4_witness :
    ∃ r, (merge_fund_with_primary_class (α := Nat)
        [⟨"F", some "RF", none, none, none, none, 0⟩]
        [⟨"F", some "X", some "Qualificado", none, none, none⟩]).get? 0 = some r ∧
      r.id_fundo = "F" ∧ r.other = 0 ∧
      (∀ v, (some "RF" : Option String) = some v → r.classificacao_anbima = some v) ∧
      ((some "RF" : Option String) = none →
        r.classificacao_anbima = class_value
          [⟨"F", some "X", some "Qualificado", none, none, none⟩] "F"
          AggRow.classificacao_anbima) ∧
      (∀ v, (none : Option String) = some v → r.publico_alvo = some v) ∧
      ((none : Option String) = none →
        r.publico_alvo = class_value
          [⟨"F", some "X", some "Qualificado", none, none, none⟩] "F"
          AggRow.publico_alvo) ∧
      (∀ v, (none : Option String) = some v → r.forma_condominio = some v) ∧
      ((none : Option String) = none →
        r.forma_condominio = class_value
          [⟨"F", some "X", some "Qualificado", none, none, none⟩] "F"
          AggRow.forma_condominio) ∧
      (∀ v, (none : Option String) = some v → r.classe_esg = some v) ∧
      ((none : Option String) = none →
        r.classe_esg = class_value
          [⟨"F", some "X", some "Qualificado", none, none, none⟩] "F"
          AggRow.classe_esg) ∧
      (∀ v, (none : Option String) = some v → r.exclusivo = some v) ∧
      ((none : Option String) = none →
        r.exclusivo = class_value
          [⟨"F", some "X", some "Qualificado", none, none, none⟩] "F"
          AggRow.exclusivo) :=
  claim_C4 [⟨"F", some "RF", none, none, none, none, 0⟩]
    [⟨"F", some "X", some "Qualificado", none, none, none⟩] 0
    ⟨"F", some "RF", none, none, none, none, 0⟩ rfl

/-- C5: a fund row with zero associated class records — including when
the class table is empty or absent — passes through the merge unchanged:
every fund-level field keeps its input value, and the class-aggregated
columns, null on such a fund before the merge, stay null. -/
theorem claim_C5 {α : Type} (fundos : List (FundRow α)) (classes : List ClassRow)
    (i : Nat) (f : FundRow α) (hf : fundos.get? i = some f)
    (hno : ∀ c ∈ classes, c.id_fundo ≠ f.id_fundo) :
    (merge_fund_with_primary_class fundos classes).get? i = some f ∧
    merge_fund_with_primary_class fundos ([] : List ClassRow) = fundos := by
  constructor
  · rw [merge_eq_map, List.get?_map, hf]
    simp only [Option.map_some']
    rw [lookup_aggregate_eq_none classes f.id_fundo hno]
    rfl
  · simp [merge_fund_with_primary_class]

/-- C5 witness: a two-fund table merged with a class table whose only
row belongs to the other fund — the classless fund's row is returned
verbatim. -/
theorem claim_C5_witness :
    (merge_fund_with_primary_class (α := Nat)
        [⟨"A", none, none, none, none, none, 1⟩,
         ⟨"B", some "RV", none, none, none, none, 2⟩]
        [⟨"B", none, some "Profissional", none, none, none⟩]).get? 0 =
      some ⟨"A", none, none, none, none, none, 1⟩ ∧
    merge_fund_with_primary_class (α := Nat)
        [⟨"A", none, none, none, none, none, 1⟩,
         ⟨"B", some "RV", none, none, none, none, 2⟩] ([] : List ClassRow) =
      [⟨"A", none, none, none, none, none, 1⟩,
       ⟨"B", some "RV", none, none, none, none, 2⟩] :=
  claim_C5
    [⟨"A", none, none, none, none, none, 1⟩,
     ⟨"B", some "RV", none, none, none, none, 2⟩]
    [⟨"B", none, some "Profissional", none, none, none⟩] 0
    ⟨"A", none, none, none, none, none, 1⟩ rfl
    (by
      intro c hc
      simp only [List.mem_cons, List.not_mem_nil, or_false] at hc
      subst hc
      decide)

/-- C10: the merge never duplicates or drops fund rows — its output has
exactly one row per input fund row, because the class table is first
aggregated to a table with pairwise-distinct fund identifiers before the
left join. -/
theorem claim_C10 {α : Type} (fundos : List (FundRow α)) (classes : List ClassRow) :
    (merge_fund_with_primary_class fundos classes).length = fundos.length ∧
    ((aggregate_classes_per_fund classes).map Prod.fst).Nodup :=
  ⟨by rw [merge_eq_map]; exact List.length_map fundos _,
   aggregate_keys_nodup classes⟩

/-- C6: on a first run — previous snapshot absent (`none`) or loaded with
an empty dataset map — every current top-level entity is classified NEW
(the NEW bucket lists exactly the current dataset identifiers) and the
MODIFIED and DELETED buckets are empty at both the dataset level and the
resource level. -/
theorem claim_C6 (current : List (String × DatasetInfo)) :
    ((detect_changes current none).new_datasets = current.map Prod.fst ∧
     (detect_changes current none).modified_datasets = [] ∧
     (detect_changes current none).deleted_datasets = [] ∧
     (detect_changes current none).modified_resources = [] ∧
     (detect_changes current none).deleted_resources = []) ∧
    ((detect_changes current (some [])).new_datasets = current.map Prod.fst ∧
     (detect_changes current (some [])).modified_datasets = [] ∧
     (detect_changes current (some [])).deleted_datasets = [] ∧
     (detect_changes current (some [])).modified_resources = [] ∧
     (detect_changes current (some [])).deleted_resources = []) := by
  refine ⟨⟨rfl, rfl, rfl, rfl, rfl⟩, ?_, ?_, ?_, ?_, ?_⟩ <;>
    simp [detect_changes, List.lookup]

/-- C7 counterexample: a dataset "D" with one resource "R".  When "D" is
NEW (empty previous state) the detector reports only the dataset-level
entry — the child resource is NOT enumerated in `new_resources`; when "D"
is DELETED (gone from current) the child is likewise NOT enumerated in
`deleted_resources`.  This refutes the claim that children of NEW/DELETED
parents are still enumerated. -/
theorem claim_C7_counterexample :
    (detect_changes [("D", ⟨some "m", [⟨"R", some "t"⟩]⟩)] (some [])).new_datasets
      = ["D"] ∧
    (detect_changes [("D", ⟨some "m", [⟨"R", some "t"⟩]⟩)] (some [])).new_resources
      = [] ∧
    ("D", "R") ∉
      (detect_changes [("D", ⟨some "m", [⟨"R", some "t"⟩]⟩)] (some [])).new_resources ∧
    (detect_changes [] (some [("D", ⟨some "m", [("R", ⟨some "t"⟩)]⟩)])).deleted_datasets
      = ["D"] ∧
    (detect_changes [] (some [("D", ⟨some "m", [("R", ⟨some "t"⟩)]⟩)])).deleted_resources
      = [] := by
  refine ⟨by decide, by decide, by decide, by decide, by decide⟩

/-- C7 amended: when a parent dataset is NEW (absent from the previous
snapshot) or DELETED (absent from the current snapshot), the detector
emits only the parent-level entry: none of that dataset's child resources
appear in any resource-level bucket — resource-level classification is
computed only for datasets present in both snapshots. -/
theorem claim_C7_amended (current : List (String × DatasetInfo))
    (prev : List (String × PrevDataset)) (d r : String)
    (h : prev.lookup d = none ∨ current.lookup d = none) :
    (d, r) ∉ (detect_changes current (some prev)).new_resources ∧
    (d, r) ∉ (detect_changes current (some prev)).deleted_resources ∧
    ∀ o n, (d, r, o, n) ∉ (detect_changes current (some prev)).modified_resources := by
  have hboth : ∀ p : String × DatasetInfo, p ∈ current → p.1 = d →
      ∀ pd, prev.lookup p.1 = some pd → False := by
    intro p hp hpd pd hlk
    rcases h with h | h
    · rw [hpd, h] at hlk
      cases hlk
    · have hs : (current.lookup p.1).isSome :=
        lookup_isSome_of_mem current p.1 (List.mem_map_of_mem Prod.fst hp)
      rw [hpd, h] at hs
      cases hs
  refine ⟨?_, ?_, ?_⟩
  · intro hmem
    obtain ⟨p, hp, hg⟩ := List.mem_flatMap.mp hmem
    cases hlk : prev.lookup p.1 with
    | none => rw [hlk] at hg; simp at hg
    | some pd =>
        rw [hlk] at hg
        obtain ⟨r', _, hr'⟩ := List.mem_map.mp hg
        exact hboth p hp (congrArg Prod.fst hr') pd hlk
  · intro hmem
    obtain ⟨p, hp, hg⟩ := List.mem_flatMap.mp hmem
    cases hlk : prev.lookup p.1 with
    | none => rw [hlk] at hg; simp at hg
    | some pd =>
        rw [hlk] at hg
        obtain ⟨q, _, hq⟩ := List.mem_map.mp hg
        exact hboth p hp (congrArg Prod.fst hq) pd hlk
  · intro o n hmem
    obtain ⟨p, hp, hg⟩ := List.mem_flatMap.mp hmem
    cases hlk : prev.lookup p.1 with
    | none => rw [hlk] at hg; simp at hg
    | some pd =>
        rw [hlk] at hg
        obtain ⟨r', _, hr'⟩ := List.mem_filterMap.mp hg
        cases hpr : pd.resources.lookup r'.id with
        | none => rw [hpr] at hr'; cases hr'
        | some pr =>
            rw [hpr] at hr'
            dsimp only at hr'
            split at hr'
            · injection hr' with he
              exact hboth p hp (congrArg Prod.fst he) pd hlk
            · cases hr'

/-- C7 amended witness: for the concrete NEW parent "D" with child "R"
and an empty previous snapshot, no resource-level bucket mentions the
child. -/
theorem claim_C7_amended_witness :
    ("D", "R") ∉
      (detect_changes [("D", ⟨some "m", [⟨"R", some "t"⟩]⟩)] (some [])).new_resources ∧
    ("D", "R") ∉
      (detect_changes [("D", ⟨some "m", [⟨"R", some "t"⟩]⟩)] (some [])).deleted_resources ∧
    ∀ o n, ("D", "R", o, n) ∉
      (detect_changes [("D", ⟨some "m", [⟨"R", some "t"⟩]⟩)]
        (some [])).modified_resources :=
  claim_C7_amended [("D", ⟨some "m", [⟨"R", some "t"⟩]⟩)] [] "D" "R" (Or.inl rfl)

/-- C8 counterexample: the SQLite store's `save_state` only upserts.
Starting from a stored state holding dataset "OLD" and saving a snapshot
containing only "NEW", the row "OLD" is still present afterwards — the
save does not fully replace the stored snapshot. -/
theorem claim_C8_counterexample :
    (storage_save_state [("OLD", ⟨some "m0", []⟩)]
        [("NEW", ⟨some "m1", []⟩)]).lookup "OLD" = some ⟨some "m0", []⟩ ∧
    "OLD" ∈ (storage_save_state [("OLD", ⟨some "m0", []⟩)]
        [("NEW", ⟨some "m1", []⟩)]).map Prod.fst := by
  refine ⟨by decide, by decide⟩

/-- C8 amended: the JSON-file store (`script.py::save_state`) rebuilds the
state from the saved snapshot alone and overwrites the file, so after a
save exactly the saved snapshot's entities are present (an entity absent
from the snapshot is gone).  The SQLite store (`src/storage.py`) instead
upserts row by row and never deletes, so an entity present before the
save remains present even when absent from the saved snapshot. -/
theorem claim_C8_amended (all_data db : List (String × DatasetInfo)) (k : String) :
    (k ∉ all_data.map Prod.fst →
      (script_save_state all_data).datasets.lookup k = none) ∧
    (k ∈ all_data.map Prod.fst →
      ((script_save_state all_data).datasets.lookup k).isSome = true) ∧
    ((db.lookup k).isSome = true →
      ((storage_save_state db all_data).lookup k).isSome = true) := by
  refine ⟨?_, ?_, ?_⟩
  · intro hk
    refine lookup_eq_none_of_forall _ _ ?_
    intro p hp he
    apply hk
    rw [← he, ← script_save_state_map_fst all_data]
    exact List.mem_map_of_mem Prod.fst hp
  · intro hk
    refine lookup_isSome_of_mem _ _ ?_
    rw [script_save_state_map_fst all_data]
    exact hk
  · intro hk
    refine lookup_isSome_of_mem _ _ ?_
    exact mem_fst_storage_save_state all_data db k (mem_fst_of_lookup_isSome db k hk)

/-- C8 amended witness: with stored state {OLD} and snapshot {NEW}, the
JSON store's result no longer contains OLD, while the SQLite store's
result still does. -/
theorem claim_C8_amended_witness :
    (script_save_state [("NEW", ⟨some "m1", []⟩)]).datasets.lookup "OLD" = none ∧
    ((storage_save_state [("OLD", ⟨some "m0", []⟩)]
        [("NEW", ⟨some "m1", []⟩)]).lookup "OLD").isSome = true :=
  ⟨(claim_C8_amended [("NEW", ⟨some "m1", []⟩)] [("OLD", ⟨some "m0", []⟩)] "OLD").1
      (by decide),
   (claim_C8_amended [("NEW", ⟨some "m1", []⟩)] [("OLD", ⟨some "m0", []⟩)] "OLD").2.2
      (by decide)⟩

/-- C9: with caching allowed and `force` false, a cached registry file
younger than the 3600-second window is served from cache with no network
call (the legacy downloader checks the age; the consolidator's CSV
downloader requires only existence, so a fresh cached file is a fortiori
served); for the large monthly ZIP archives the decision has no age input
at all — an existing non-empty extraction directory is reused. -/
theorem claim_C9 (idade : Nat) (h : idade < 3600) :
    baixar_csv_action true true idade = FetchAction.cached ∧
    download_csv_action true false true = FetchAction.cached ∧
    download_zip_action true false true true = FetchAction.cached := by
  refine ⟨?_, rfl, rfl⟩
  simp [baixar_csv_action, h]

/-- C9 witness: a 100-second-old cached file is served from cache. -/
theorem claim_C9_witness :
    (100 : Nat) < 3600 ∧
    (baixar_csv_action true true 100 = FetchAction.cached ∧
     download_csv_action true false true = FetchAction.cached ∧
     download_zip_action true false true true = FetchAction.cached) :=
  ⟨by decide, claim_C9 100 (by decide)⟩

end Fundos
